import Mathlib

/-!
Verification development for the xmr-btc atomic swap implementation.

Shallow embedding of:
* the taker ("Bob") state machine driver `run_until_internal`
  (swap/src/protocol/bob/swap.rs),
* the Bitcoin wallet confirmation bookkeeping (`Confirmed`, `ScriptStatus`,
  `Client::status_of_script`, `Client::ping`, `Client::drain_notifications`,
  `Wallet::broadcast`) from swap/src/bitcoin/wallet.rs.

Effectful Rust code is embedded as pure functions over an explicit
environment record: every awaited call of a step is given its outcome by a
field of `Env`, `select!` races are resolved by a `RaceWinner` field, and
the on-chain / protocol side effects a step performs are collected, in
order, in a `List SwapAction`.
-/

/-- Result of `current_epoch` / `expired_timelock`
(swap/src/bitcoin, `ExpiredTimelocks`): which timelock label applies. -/
inductive ExpiredTimelocks where
  | none
  | cancel
  | punish
deriving DecidableEq, Repr

/-- Which branch of a `select!` completes first. -/
inductive RaceWinner where
  | first
  | second
deriving DecidableEq, Repr

/-- Error kinds propagated by `?` in `run_until_internal`; `anyhow` errors
are opaque, so a small enumeration suffices. `internalInvariant` is the
`bail!("Internal error: canceled state reached before cancel timelock was
expired")` in the `BtcCancelled` arm. -/
inductive SwapError where
  | newAddressFailed
  | dialFailed
  | spotPriceFailed
  | setupFailed
  | lockBtcFailed
  | signFailed
  | broadcastFailed
  | epochFailed
  | blockHeightFailed
  | transferProofFailed
  | waitCancelFailed
  | watchRedeemFailed
  | claimXmrFailed
  | refreshFailed
  | sweepFailed
  | submitCancelFailed
  | refundFailed
  | internalInvariant
deriving DecidableEq, Repr

/-- Modelled from the spec: the cryptographic session state `State2` produced
by ExecutionSetup (swap/src/protocol/bob/state.rs is not part of the sources;
its content is irrelevant to the state machine's control flow). -/
structure State2 where
  v : Nat
deriving DecidableEq, Repr

/-- Modelled from the spec: the post-lock state `State3`. -/
structure State3 where
  v : Nat
deriving DecidableEq, Repr

/-- Modelled from the spec: the state `State4` held by the cancel path. -/
structure State4 where
  v : Nat
deriving DecidableEq, Repr

/-- Modelled from the spec: the state `State5` produced by observing the
maker's redeem transaction. -/
structure State5 where
  v : Nat
deriving DecidableEq, Repr

/-- Modelled from the spec: `State3::cancel`. -/
def State3.cancel (s : State3) : State4 := ⟨s.v⟩

/-- Modelled from the spec: `State3::xmr_locked(restore_blockheight)`. -/
def State3.xmrLocked (s : State3) (restoreBlockheight : Nat) : State4 :=
  ⟨s.v + restoreBlockheight⟩

/-- Modelled from the spec: `cancel` on the state held in `XmrLocked` /
`EncSigSent`. -/
def State4.cancel (s : State4) : State4 := s

/-- Modelled from the spec: `State4::tx_lock_id`. -/
def State4.txLockId (s : State4) : Nat := s.v

/-- Modelled from the spec: `State5::tx_lock_id`. -/
def State5.txLockId (s : State5) : Nat := s.v

/-- The taker state enumeration `BobState`
(swap/src/protocol/bob/state.rs, as matched by `run_until_internal`). -/
inductive BobState where
  | started (btcAmount : Nat)
  | executionSetupDone (s2 : State2)
  | btcLocked (s3 : State3)
  | xmrLockProofReceived (s : State3) (lockTransferProof : Nat)
      (moneroWalletRestoreBlockheight : Nat)
  | xmrLocked (s : State4)
  | encSigSent (s : State4)
  | btcRedeemed (s : State5)
  | cancelTimelockExpired (s4 : State4)
  | btcCancelled (s4 : State4)
  | btcRefunded (s4 : State4)
  | btcPunished (txLockId : Nat)
  | safelyAborted
  | xmrRedeemed (txLockId : Nat)
deriving DecidableEq, Repr

/-- Protocol / on-chain side effects performed by one step of
`run_until_internal`, in execution order. -/
inductive SwapAction where
  | dial
  | signBtc
  | broadcastBtc
  | sendEncSig
  | claimXmr
  | refreshXmr
  | sweepXmr
  | submitTxCancel
  | refundBtc
deriving DecidableEq, Repr

/-- Outcomes of the awaited calls made by one invocation of the `match` in
`run_until_internal`. Only one state arm runs per step, so one record and a
single race resolver cover every arm. -/
structure Env where
  newAddress : Except SwapError Nat
  dial : Except SwapError Unit
  spotPrice : Except SwapError Nat
  executionSetup : Except SwapError State2
  epoch : Except SwapError ExpiredTimelocks
  blockHeight : Except SwapError Nat
  race : RaceWinner
  transferProof : Except SwapError Nat
  lockBtc : Except SwapError (State3 × Nat)
  sign : Except SwapError Unit
  broadcastRes : Except SwapError Unit
  watchTransfer : Except SwapError Unit
  waitCancel : Except SwapError Unit
  watchRedeem : Except SwapError State5
  claimXmrRes : Except SwapError Unit
  refreshRes : Except SwapError Unit
  sweepAll : Except SwapError (List Nat)
  checkTxCancelIsErr : Bool
  submitTxCancelRes : Except SwapError Unit
  refundBtcRes : Except SwapError Unit
deriving Repr

/-- `is_complete` (swap/src/protocol/bob/swap.rs, lines 16-24). -/
def isComplete (state : BobState) : Bool :=
  match state with
  | .btcRefunded _ => true
  | .xmrRedeemed _ => true
  | .btcPunished _ => true
  | .safelyAborted => true
  | _ => false

/-- The `match state` block of `run_until_internal`
(swap/src/protocol/bob/swap.rs, lines 68-248): one transition of the taker
state machine. Returns the side effects performed, in order, and either the
new state or the error propagated by `?` / `bail!`. -/
def bobStep (env : Env) (s : BobState) : List SwapAction × Except SwapError BobState :=
  match s with
  | .started _btcAmount =>
    match env.newAddress with
    | .error e => ([], .error e)
    | .ok _refundAddress =>
      match env.dial with
      | .error e => ([], .error e)
      | .ok _ =>
        match env.spotPrice with
        | .error e => ([.dial], .error e)
        | .ok _xmr =>
          match env.executionSetup with
          | .error e => ([.dial], .error e)
          | .ok s2 => ([.dial], .ok (.executionSetupDone s2))
  | .executionSetupDone _s2 =>
    -- Do not lock Bitcoin if not connected to Alice.
    match env.dial with
    | .error e => ([], .error e)
    | .ok _ =>
      match env.lockBtc with
      | .error e => ([.dial], .error e)
      | .ok (s3, _txLock) =>
        match env.sign with
        | .error e => ([.dial], .error e)
        | .ok _ =>
          match env.broadcastRes with
          | .error e => ([.dial, .signBtc], .error e)
          | .ok _ => ([.dial, .signBtc, .broadcastBtc], .ok (.btcLocked s3))
  | .btcLocked s3 =>
    match env.epoch with
    | .error e => ([], .error e)
    | .ok .none =>
      match env.dial with
      | .error e => ([], .error e)
      | .ok _ =>
        match env.blockHeight with
        | .error e => ([.dial], .error e)
        | .ok restoreHeight =>
          match env.race with
          | .first =>
            match env.transferProof with
            | .error e => ([.dial], .error e)
            | .ok proof =>
              ([.dial], .ok (.xmrLockProofReceived s3 proof restoreHeight))
          | .second => ([.dial], .ok (.cancelTimelockExpired s3.cancel))
    | .ok _ => ([], .ok (.cancelTimelockExpired s3.cancel))
  | .xmrLockProofReceived st _proof restoreHeight =>
    match env.epoch with
    | .error e => ([], .error e)
    | .ok .none =>
      match env.dial with
      | .error e => ([], .error e)
      | .ok _ =>
        match env.race with
        | .first =>
          match env.watchTransfer with
          | .ok _ => ([.dial], .ok (.xmrLocked (st.xmrLocked restoreHeight)))
          | .error _ =>
            match env.waitCancel with
            | .error e2 => ([.dial], .error e2)
            | .ok _ => ([.dial], .ok (.cancelTimelockExpired st.cancel))
        | .second => ([.dial], .ok (.cancelTimelockExpired st.cancel))
    | .ok _ => ([], .ok (.cancelTimelockExpired st.cancel))
  | .xmrLocked st =>
    match env.epoch with
    | .error e => ([], .error e)
    | .ok .none =>
      match env.dial with
      | .error e => ([], .error e)
      | .ok _ =>
        match env.race with
        | .first => ([.dial, .sendEncSig], .ok (.encSigSent st))
        | .second => ([.dial], .ok (.cancelTimelockExpired st.cancel))
    | .ok _ => ([], .ok (.cancelTimelockExpired st.cancel))
  | .encSigSent st =>
    match env.epoch with
    | .error e => ([], .error e)
    | .ok .none =>
      match env.race with
      | .first =>
        match env.watchRedeem with
        | .error e => ([], .error e)
        | .ok s5 => ([], .ok (.btcRedeemed s5))
      | .second => ([], .ok (.cancelTimelockExpired st.cancel))
    | .ok _ => ([], .ok (.cancelTimelockExpired st.cancel))
  | .btcRedeemed st =>
    match env.claimXmrRes with
    | .error e => ([], .error e)
    | .ok _ =>
      match env.refreshRes with
      | .error e => ([.claimXmr], .error e)
      | .ok _ =>
        match env.sweepAll with
        | .error e => ([.claimXmr, .refreshXmr], .error e)
        | .ok _txHashes =>
          ([.claimXmr, .refreshXmr, .sweepXmr], .ok (.xmrRedeemed st.txLockId))
  | .cancelTimelockExpired s4 =>
    if env.checkTxCancelIsErr then
      match env.submitTxCancelRes with
      | .error e => ([], .error e)
      | .ok _ => ([.submitTxCancel], .ok (.btcCancelled s4))
    else ([], .ok (.btcCancelled s4))
  | .btcCancelled st =>
    match env.epoch with
    | .error e => ([], .error e)
    | .ok .none => ([], .error .internalInvariant)
    | .ok .cancel =>
      match env.refundBtcRes with
      | .error e => ([], .error e)
      | .ok _ => ([.refundBtc], .ok (.btcRefunded st))
    | .ok .punish => ([], .ok (.btcPunished st.txLockId))
  | .btcRefunded s4 => ([], .ok (.btcRefunded s4))
  | .btcPunished txLockId => ([], .ok (.btcPunished txLockId))
  | .safelyAborted => ([], .ok .safelyAborted)
  | .xmrRedeemed txLockId => ([], .ok (.xmrRedeemed txLockId))

/-- Events visible in a run of the driver: the step side effects, plus the
database write `db.insert_latest_state(swap_id, new_state)`. -/
inductive Event where
  | act (a : SwapAction)
  | persist (swapId : Nat) (s : BobState)
deriving DecidableEq, Repr

/-- The recursive driver `run_until_internal`
(swap/src/protocol/bob/swap.rs, lines 52-264), with fuel for termination:
return the state once `is_target_state` holds, otherwise take one step,
persist the new state under the swap id, and recurse on it. `envs` supplies
the environment of each recursion depth. The result is `none` when the fuel
runs out mid-protocol. -/
def runUntilInternal (envs : Nat → Env) (isTargetState : BobState → Bool)
    (swapId : Nat) : Nat → BobState → List Event × Option (Except SwapError BobState)
  | 0, s => if isTargetState s then ([], some (.ok s)) else ([], none)
  | fuel + 1, s =>
    if isTargetState s then ([], some (.ok s))
    else
      match bobStep (envs fuel) s with
      | (as, .error e) => (as.map .act, some (.error e))
      | (as, .ok s') =>
        let rest := runUntilInternal envs isTargetState swapId fuel s'
        (as.map .act ++ .persist swapId s' :: rest.1, rest.2)

/-- No BTC signing or broadcasting occurs in an action trace before the
first successful dial. -/
def dialPrecedesBtc : List SwapAction → Bool
  | [] => true
  | .dial :: _ => true
  | .signBtc :: _ => false
  | .broadcastBtc :: _ => false
  | _ :: rest => dialPrecedesBtc rest

/-- `Confirmed` (wallet.rs 464-470): the depth of a transaction within the
blockchain, zero when it sits in the latest block. -/
structure Confirmed where
  depth : Nat
deriving DecidableEq, Repr

/-- `Confirmed::new` (wallet.rs 473-475). -/
def Confirmed.new (depth : Nat) : Confirmed := ⟨depth⟩

/-- `Confirmed::from_inclusion_and_latest_block` (wallet.rs 483-487):
`latest_block.saturating_sub(inclusion_height)`; `u32` saturating
subtraction coincides with truncated subtraction on `Nat`. -/
def Confirmed.fromInclusionAndLatestBlock (inclusionHeight latestBlock : Nat) : Confirmed :=
  ⟨latestBlock - inclusionHeight⟩

/-- `Confirmed::confirmations` (wallet.rs 489-491): `depth + 1`. -/
def Confirmed.confirmations (c : Confirmed) : Nat := c.depth + 1

/-- `Confirmed::meets_target` (wallet.rs 493-498):
`confirmations() >= target`. -/
def Confirmed.meetsTarget (c : Confirmed) (target : Nat) : Bool :=
  decide (c.confirmations ≥ target)

/-- `ScriptStatus` (wallet.rs 448-453). -/
inductive ScriptStatus where
  | unseen
  | inMempool
  | confirmed (c : Confirmed)
deriving DecidableEq, Repr

/-- `ScriptStatus::from_confirmations` (wallet.rs 456-461). -/
def ScriptStatus.fromConfirmations : Nat → ScriptStatus
  | 0 => .inMempool
  | confirmations + 1 => .confirmed (Confirmed.new confirmations)

/-- `ScriptStatus::is_confirmed` (wallet.rs 503-505). -/
def ScriptStatus.isConfirmed : ScriptStatus → Bool
  | .confirmed _ => true
  | _ => false

/-- `ScriptStatus::is_confirmed_with` (wallet.rs 508-516). -/
def ScriptStatus.isConfirmedWith (s : ScriptStatus) (target : Nat) : Bool :=
  match s with
  | .confirmed inner => inner.meetsTarget target
  | _ => false

/-- `ScriptStatus::has_been_seen` (wallet.rs 518-520). -/
def ScriptStatus.hasBeenSeen : ScriptStatus → Bool
  | .inMempool => true
  | .confirmed _ => true
  | _ => false

/-- An electrum script-history row (`GetHistoryRes`): inclusion height
(≤ 0 while unconfirmed) and transaction hash. -/
structure GetHistoryRes where
  height : Int
  txHash : Nat
deriving DecidableEq, Repr

/-- Classification part of `Client::status_of_script` (wallet.rs 367-406),
applied to the post-refresh history of the watched script: keep only rows
whose `tx_hash` equals `tx.id()`; no such row → `Unseen`; otherwise the
last matching row decides — height ≤ 0 → `InMempool`, else `Confirmed`
from its inclusion height and the latest known block. The Bool records
whether the warning about more than one matching row is logged.
`u32::try_from(last.height)` cannot fail in the branch taken, since there
`last.height > 0`. -/
def statusOfScript (history : List GetHistoryRes) (txid : Nat) (latestBlock : Nat) :
    ScriptStatus × Bool :=
  let historyOfTx := history.filter (fun entry => entry.txHash == txid)
  match historyOfTx.getLast? with
  | none => (.unseen, false)
  | some lastEntry =>
    let warned := decide (1 < historyOfTx.length)
    if lastEntry.height ≤ 0 then (.inMempool, warned)
    else
      (.confirmed (Confirmed.fromInclusionAndLatestBlock lastEntry.height.toNat latestBlock),
       warned)

/-- The mutable fields of `Client` (wallet.rs 306-312) read and written by
the refresh policy; `elapsedSinceLastPing` stands for
`self.last_ping.elapsed()` at the current call, in the same time unit as
`interval`. Script histories are an association list over script ids. -/
structure ClientState where
  latestBlock : Nat
  elapsedSinceLastPing : Nat
  interval : Nat
  scriptHistory : List (Nat × List GetHistoryRes)
deriving DecidableEq, Repr

/-- The chain server as seen by one refresh: whether the ping reaches it,
the queued block-header notifications (oldest first), and the current
history of every script. -/
structure ServerView where
  pingOk : Bool
  pendingBlocks : List Nat
  histories : Nat → List GetHistoryRes

/-- `Client::ping` (wallet.rs 335-352): a no-op returning false while
`last_ping.elapsed() <= interval`; past the interval it pings, and only a
successful ping resets `last_ping` and returns true. -/
def Client.ping (st : ClientState) (srv : ServerView) : ClientState × Bool :=
  if st.elapsedSinceLastPing ≤ st.interval then (st, false)
  else if srv.pingOk then ({ st with elapsedSinceLastPing := 0 }, true)
  else (st, false)

/-- `Client::drain_blockheight_notifications` (wallet.rs 408-423): pop all
queued header notifications keeping only the newest; with no notification
pending, `latest_block` is unchanged. -/
def Client.drainBlockheightNotifications (st : ClientState) (srv : ServerView) : ClientState :=
  { st with latestBlock := srv.pendingBlocks.getLast?.getD st.latestBlock }

/-- `Client::update_script_histories` (wallet.rs 425-445): batch-fetch the
history of every currently watched script. -/
def Client.updateScriptHistories (st : ClientState) (srv : ServerView) : ClientState :=
  { st with scriptHistory := st.scriptHistory.map (fun p => (p.1, srv.histories p.1)) }

/-- `Client::drain_notifications` (wallet.rs 354-365): refresh the cached
view — newest queued header, then batch-fetched histories — exactly when
`ping` reports that the server was contacted; otherwise leave the cache
untouched. The Bool reports whether a refresh happened. -/
def Client.drainNotifications (st : ClientState) (srv : ServerView) : ClientState × Bool :=
  match Client.ping st srv with
  | (st1, false) => (st1, false)
  | (st1, true) =>
    (Client.updateScriptHistories (Client.drainBlockheightNotifications st1 srv) srv, true)

/-- A transaction output: only the `script_pubkey` matters here, kept as an
identifier. -/
structure TxOut where
  scriptPubkey : Nat
deriving DecidableEq, Repr

/-- A Bitcoin transaction as used by `Wallet::broadcast`: its id and its
output list. -/
structure BtcTransaction where
  txid : Nat
  output : List TxOut
deriving DecidableEq, Repr

/-- `Wallet::broadcast` (wallet.rs 167-191): build the finality watcher
from `(txid, transaction.output[0].script_pubkey)` — indexing that panics
on an empty output list, before anything reaches the network — then hand
the transaction to the underlying wallet. `none` models the panic; the
payload is the returned txid together with the `(txid, script)` pair the
finality future watches; the Bool records whether the broadcast was
attempted at all. -/
def Wallet.broadcast (tx : BtcTransaction) (broadcastOk : Bool) :
    Option (Except SwapError (Nat × Nat × Nat)) × Bool :=
  match tx.output with
  | [] => (none, false)
  | o :: _ =>
    if broadcastOk then (some (.ok (tx.txid, tx.txid, o.scriptPubkey)), true)
    else (some (.error .broadcastFailed), true)

/-- An environment in which every awaited call succeeds, the first branch
wins every race, no timelock has expired, and the cancel transaction is
already on-chain. Used to instantiate the theorems below. -/
def envOk : Env :=
  { newAddress := .ok 1
    dial := .ok ()
    spotPrice := .ok 100
    executionSetup := .ok ⟨0⟩
    epoch := .ok .none
    blockHeight := .ok 10
    race := .first
    transferProof := .ok 5
    lockBtc := .ok (⟨2⟩, 3)
    sign := .ok ()
    broadcastRes := .ok ()
    watchTransfer := .ok ()
    waitCancel := .ok ()
    watchRedeem := .ok ⟨4⟩
    claimXmrRes := .ok ()
    refreshRes := .ok ()
    sweepAll := .ok [6]
    checkTxCancelIsErr := false
    submitTxCancelRes := .ok ()
    refundBtcRes := .ok () }

/-- `envOk` with a failing dial. -/
def envDialFail : Env := { envOk with dial := .error .dialFailed }

/-- `envOk` with the Cancel timelock label applying. -/
def envCancelLabel : Env := { envOk with epoch := .ok .cancel }

/-- `envOk` with `watch_for_transfer` failing (insufficient Monero). -/
def envXmrShort : Env := { envOk with watchTransfer := .error .transferProofFailed }

/-- C5: terminal states (`is_complete`) are fixed points of the taker state
machine: one step from any of BtcRefunded, XmrRedeemed, BtcPunished or
SafelyAborted performs no action and returns the state unchanged. -/
theorem terminal_states_are_fixed_points (env : Env) (s : BobState)
    (h : isComplete s = true) : bobStep env s = ([], .ok s) := by
  cases s <;> simp_all [isComplete, bobStep]

/-- Witness for C5 at the SafelyAborted state. -/
theorem terminal_states_are_fixed_points_witness :
    bobStep envOk .safelyAborted = ([], .ok .safelyAborted) :=
  terminal_states_are_fixed_points envOk .safelyAborted rfl

/-- C6: for every inclusion height h and latest known block height H,
`Confirmed::from_inclusion_and_latest_block` has depth max(0, H − h); in
particular when h > H the depth is 0, with no negative or overflowing
subtraction. -/
theorem confirmed_depth_saturating (h H : Nat) :
    ((Confirmed.fromInclusionAndLatestBlock h H).depth : Int) = max 0 ((H : Int) - h)
      ∧ (H < h → (Confirmed.fromInclusionAndLatestBlock h H).depth = 0) := by
  constructor
  · simp only [Confirmed.fromInclusionAndLatestBlock]
    omega
  · intro hlt
    simp only [Confirmed.fromInclusionAndLatestBlock]
    omega

/-- Witness for C6 with the inclusion height past the latest block. -/
theorem confirmed_depth_saturating_witness :
    (Confirmed.fromInclusionAndLatestBlock 12 10).depth = 0 :=
  (confirmed_depth_saturating 12 10).2 (by decide)

/-- C7: a Confirmed status of depth d has d + 1 confirmations and meets a
target exactly when d + 1 ≥ target; depth 0 meets target 1; Unseen and
InMempool never meet any target. -/
theorem confirmations_meet_target (d target : Nat) :
    (Confirmed.new d).confirmations = d + 1
      ∧ (ScriptStatus.confirmed (Confirmed.new d)).isConfirmedWith target
          = decide (d + 1 ≥ target)
      ∧ (ScriptStatus.confirmed (Confirmed.new 0)).isConfirmedWith 1 = true
      ∧ ScriptStatus.unseen.isConfirmedWith target = false
      ∧ ScriptStatus.inMempool.isConfirmedWith target = false := by
  refine ⟨rfl, ?_, rfl, rfl, rfl⟩
  simp [ScriptStatus.isConfirmedWith, Confirmed.meetsTarget, Confirmed.confirmations,
    Confirmed.new]

/-- C1: in the step from ExecutionSetupDone, a successful dial to the
maker precedes signing and broadcasting the BTC lock transaction; if the
dial fails the step returns the dial error having performed no action — in
particular no BTC broadcast — and the driver then records no successor
state, so the swap does not move past ExecutionSetupDone. -/
theorem dial_before_btc_lock (env : Env) (s2 : State2) :
    dialPrecedesBtc (bobStep env (.executionSetupDone s2)).1 = true
      ∧ (∀ e, env.dial = .error e →
          bobStep env (.executionSetupDone s2) = ([], .error e))
      ∧ (∀ e envs isTargetState swapId fuel,
          envs fuel = env → env.dial = .error e →
          isTargetState (.executionSetupDone s2) = false →
          runUntilInternal envs isTargetState swapId (fuel + 1) (.executionSetupDone s2)
            = ([], some (.error e))) := by
  have hd : ∀ e, env.dial = .error e →
      bobStep env (.executionSetupDone s2) = ([], .error e) := by
    intro e he
    simp [bobStep, he]
  refine ⟨?_, hd, ?_⟩
  · rcases he : env.dial with e | u
    · simp [bobStep, he, dialPrecedesBtc]
    · rcases hl : env.lockBtc with e | ⟨s3, txLock⟩ <;>
        rcases hs : env.sign with e2 | u2 <;>
        rcases hb : env.broadcastRes with e3 | u3 <;>
        simp [bobStep, he, hl, hs, hb, dialPrecedesBtc]
  · intro e envs isTargetState swapId fuel henv he ht
    have hstep : bobStep (envs fuel) (.executionSetupDone s2) = ([], .error e) := by
      rw [henv]; exact hd e he
    simp [runUntilInternal, ht, hstep]

/-- Witness for C1: a failing dial leaves the step with no action and the
dial error. -/
theorem dial_before_btc_lock_witness :
    bobStep envDialFail (.executionSetupDone ⟨0⟩) = ([], .error .dialFailed) :=
  (dial_before_btc_lock envDialFail ⟨0⟩).2.1 .dialFailed rfl

/-- C2: when the driver steps from a non-target state and the step
computes a new state, the run's event trace is exactly the step's actions,
then the persistence of the new state under the swap id, then the trace of
the run continued from that state — the new state is persisted before the
driver recurses, with no protocol action in between. -/
theorem persist_before_recurse (envs : Nat → Env) (isTargetState : BobState → Bool)
    (swapId fuel : Nat) (s s' : BobState) (as : List SwapAction)
    (ht : isTargetState s = false)
    (hstep : bobStep (envs fuel) s = (as, .ok s')) :
    runUntilInternal envs isTargetState swapId (fuel + 1) s
      = (as.map .act
          ++ .persist swapId s'
            :: (runUntilInternal envs isTargetState swapId fuel s').1,
         (runUntilInternal envs isTargetState swapId fuel s').2) := by
  simp [runUntilInternal, ht, hstep]

/-- Witness for C2 at the CancelTimelockExpired state with the cancel
transaction already on-chain. -/
theorem persist_before_recurse_witness :
    runUntilInternal (fun _ => envOk) isComplete 0 2 (.cancelTimelockExpired ⟨1⟩)
      = (([] : List SwapAction).map .act
          ++ .persist 0 (.btcCancelled ⟨1⟩)
            :: (runUntilInternal (fun _ => envOk) isComplete 0 1 (.btcCancelled ⟨1⟩)).1,
         (runUntilInternal (fun _ => envOk) isComplete 0 1 (.btcCancelled ⟨1⟩)).2) :=
  persist_before_recurse (fun _ => envOk) isComplete 0 1 (.cancelTimelockExpired ⟨1⟩)
    (.btcCancelled ⟨1⟩) [] rfl rfl

/-- C3: in BtcCancelled the step is decided by the timelock label: None →
internal-invariant error with no successor state and no action; Cancel →
refund the BTC and move to BtcRefunded; Punish → move to BtcPunished
carrying the lock transaction id. -/
theorem btc_cancelled_branches (env : Env) (s4 : State4) :
    (env.epoch = .ok .none →
        bobStep env (.btcCancelled s4) = ([], .error .internalInvariant))
      ∧ (env.epoch = .ok .cancel → env.refundBtcRes = .ok () →
          bobStep env (.btcCancelled s4) = ([.refundBtc], .ok (.btcRefunded s4)))
      ∧ (env.epoch = .ok .punish →
          bobStep env (.btcCancelled s4) = ([], .ok (.btcPunished s4.txLockId))) := by
  refine ⟨?_, ?_, ?_⟩
  · intro h; simp [bobStep, h]
  · intro h hr; simp [bobStep, h, hr]
  · intro h; simp [bobStep, h]

/-- Witness for C3 in the Cancel branch. -/
theorem btc_cancelled_branches_witness :
    bobStep envCancelLabel (.btcCancelled ⟨1⟩) = ([.refundBtc], .ok (.btcRefunded ⟨1⟩)) :=
  (btc_cancelled_branches envCancelLabel ⟨1⟩).2.1 rfl rfl

/-- C4: in XmrLockProofReceived a failing `watch_for_transfer` can never
yield XmrLocked, whatever the rest of the environment does; and with the
cancel timelock not yet expired (label None, budget remaining), a failed
watch waits out the cancel timelock and moves to CancelTimelockExpired. -/
theorem insufficient_xmr_routes_to_cancel (env : Env) (st : State3)
    (lockProof restoreHeight : Nat) :
    (∀ e, env.watchTransfer = .error e →
        ∀ x, (bobStep env (.xmrLockProofReceived st lockProof restoreHeight)).2
          ≠ .ok (.xmrLocked x))
      ∧ (∀ e, env.epoch = .ok .none → env.dial = .ok () → env.race = .first →
          env.watchTransfer = .error e → env.waitCancel = .ok () →
          bobStep env (.xmrLockProofReceived st lockProof restoreHeight)
            = ([.dial], .ok (.cancelTimelockExpired st.cancel))) := by
  constructor
  · intro e he x
    rcases hep : env.epoch with e1 | ep
    · simp [bobStep, hep]
    · cases ep
      · rcases hdi : env.dial with e2 | u
        · simp [bobStep, hep, hdi]
        · cases hr : env.race
          · rcases hw : env.waitCancel with e3 | u2 <;>
              simp [bobStep, hep, hdi, hr, he, hw]
          · simp [bobStep, hep, hdi, hr]
      · simp [bobStep, hep]
      · simp [bobStep, hep]
  · intro e hep hdi hr he hw
    simp [bobStep, hep, hdi, hr, he, hw]

/-- Witness for C4: insufficient Monero locked routes to the cancel path. -/
theorem insufficient_xmr_routes_to_cancel_witness :
    bobStep envXmrShort (.xmrLockProofReceived ⟨2⟩ 5 10)
      = ([.dial], .ok (.cancelTimelockExpired ⟨2⟩)) :=
  (insufficient_xmr_routes_to_cancel envXmrShort ⟨2⟩ 5 10).2 .transferProofFailed
    rfl rfl rfl rfl rfl

/-- C8: `status_of_script` classifies by the history rows whose tx hash
matches the watched transaction: no matching row → Unseen, no warning;
otherwise the last matching row alone decides — height ≤ 0 → InMempool,
height > 0 → Confirmed from that inclusion height and the latest block —
the earlier matching rows are ignored, and the warning fires exactly when
more than one row matched. -/
theorem statusOfScript_classifies (history : List GetHistoryRes)
    (txid latestBlock : Nat) (pre : List GetHistoryRes) (lastEntry : GetHistoryRes) :
    (history.filter (fun entry => entry.txHash == txid) = [] →
        statusOfScript history txid latestBlock = (.unseen, false))
      ∧ (history.filter (fun entry => entry.txHash == txid) = pre ++ [lastEntry] →
          statusOfScript history txid latestBlock =
            ((if lastEntry.height ≤ 0 then .inMempool
              else .confirmed (Confirmed.fromInclusionAndLatestBlock
                lastEntry.height.toNat latestBlock)),
             !pre.isEmpty)) := by
  constructor
  · intro hnil
    simp [statusOfScript, hnil]
  · intro heq
    have hlast : (pre ++ [lastEntry]).getLast? = some lastEntry := by
      simp [List.getLast?_append]
    have hwarn : decide (1 < (pre ++ [lastEntry]).length) = !pre.isEmpty := by
      cases pre <;> simp
    simp only [statusOfScript, heq, hlast, hwarn]
    split <;> rfl

/-- Witness for C8: three history rows, two of them matching; the last
match (height 5) decides and the warning fires. -/
theorem statusOfScript_classifies_witness :
    statusOfScript [⟨0, 7⟩, ⟨3, 8⟩, ⟨5, 7⟩] 7 9
      = (.confirmed (Confirmed.fromInclusionAndLatestBlock 5 9), true) := by
  have h := (statusOfScript_classifies [⟨0, 7⟩, ⟨3, 8⟩, ⟨5, 7⟩] 7 9 [⟨0, 7⟩] ⟨5, 7⟩).2
    (by decide)
  simpa using h

/-- A client state whose elapsed time since the last ping equals the poll
interval exactly, watching no script. -/
def clientAtInterval : ClientState := ⟨0, 1, 1, []⟩

/-- A client state past its poll interval, watching script 3. -/
def clientDue : ClientState := ⟨0, 2, 1, [(3, [])]⟩

/-- A reachable server with one queued block-header notification at height
7 and empty script histories. -/
def serverWithNews : ServerView := ⟨true, [7], fun _ => []⟩

/-- C9 counterexample: with poll interval 1 and exactly 1 time unit
elapsed — so now − last_refresh ≥ poll_interval holds — and a reachable
server holding a queued block notification, `drain_notifications` does not
refresh: it reports no server contact and returns the cached state
unchanged, contrary to the claimed "refresh exactly when now −
last_refresh ≥ poll_interval". -/
theorem refresh_at_exact_interval_counterexample :
    clientAtInterval.interval ≤ clientAtInterval.elapsedSinceLastPing
      ∧ Client.drainNotifications clientAtInterval serverWithNews
          = (clientAtInterval, false) := by
  constructor
  · decide
  · rfl

/-- C9 (amended): on each call the watcher refreshes its view — draining
the pending block-header notifications keeping only the newest, then
batch-fetching the histories of all currently watched scripts — exactly
when now − last_refresh is strictly greater than the poll interval and the
ping reaches the server; otherwise it returns the cached state unchanged. -/
theorem refresh_policy (st : ClientState) (srv : ServerView) :
    ((Client.drainNotifications st srv).2
        = (decide (st.interval < st.elapsedSinceLastPing) && srv.pingOk))
      ∧ ((Client.drainNotifications st srv).2 = true →
          (Client.drainNotifications st srv).1 =
            { st with
                elapsedSinceLastPing := 0
                latestBlock := srv.pendingBlocks.getLast?.getD st.latestBlock
                scriptHistory := st.scriptHistory.map (fun p => (p.1, srv.histories p.1)) })
      ∧ ((Client.drainNotifications st srv).2 = false →
          (Client.drainNotifications st srv).1 = st) := by
  unfold Client.drainNotifications Client.ping Client.drainBlockheightNotifications
    Client.updateScriptHistories
  by_cases h1 : st.elapsedSinceLastPing ≤ st.interval
  · have h1d : decide (st.interval < st.elapsedSinceLastPing) = false := by
      simp; omega
    simp [h1, h1d]
  · have h1d : decide (st.interval < st.elapsedSinceLastPing) = true := by
      simp; omega
    cases h2 : srv.pingOk <;> simp [h1, h2, h1d]

/-- Witness for C9 (amended): past the interval with a reachable server,
the refresh adopts the newest queued header and refetches histories. -/
theorem refresh_policy_witness :
    (Client.drainNotifications clientDue serverWithNews).1 =
      { clientDue with
          elapsedSinceLastPing := 0
          latestBlock := 7
          scriptHistory := [(3, [])] } :=
  (refresh_policy clientDue serverWithNews).2.1 rfl

/-- C10: `Wallet::broadcast` implicitly requires at least one output: with
a non-empty output list the finality watcher watches the script_pubkey of
output 0 and the transaction is handed to the network, and with an empty
output list the indexing panics before any broadcast is attempted. -/
theorem broadcast_watches_first_output (tx : BtcTransaction) (ok : Bool) :
    (tx.output = [] → Wallet.broadcast tx ok = (none, false))
      ∧ (∀ o rest, tx.output = o :: rest →
          Wallet.broadcast tx ok
            = (some (if ok then .ok (tx.txid, tx.txid, o.scriptPubkey)
                     else .error .broadcastFailed), true)) := by
  constructor
  · intro h; simp [Wallet.broadcast, h]
  · intro o rest h; cases ok <;> simp [Wallet.broadcast, h]

/-- Witness for C10: a two-output transaction is broadcast and watched on
its first output's script. -/
theorem broadcast_watches_first_output_witness :
    Wallet.broadcast ⟨9, [⟨5⟩, ⟨6⟩]⟩ true = (some (.ok (9, 9, 5)), true) := by
  have h := (broadcast_watches_first_output ⟨9, [⟨5⟩, ⟨6⟩]⟩ true).2 ⟨5⟩ [⟨6⟩] rfl
  simpa using h
